import Mathlib

/-!
Shallow embedding of `parse_ci_monitor_json.py`: the known-issue classifier
(`IssuesFinder`), the retrying log fetcher, the per-record field extractors
(`get_link_to_log`, `get_automation_script`, `get_owner`, the profile
extraction of `main`) and the three-level report aggregation of `main`.
-/

namespace CIMon

/-!
### A model of the regular-expression fragment the script uses

Every pattern the script passes to `re.search` is built from literal
characters, backslash-escaped literals (as in the escaped parentheses of the
cleanup rule) and the any-character metacharacter `.` (which in Python does
not match a newline); the only quantifiers are one `.*` inside a capture
group, modelled separately by `greedyStar`, and the `\s*` of the author
pattern, modelled by skipping the maximal whitespace run.  A pattern atom is
a literal or the wildcard.
-/

inductive PatChar where
  | lit (c : Char)
  | any
deriving DecidableEq, Repr

/-- Read a Python regex made of literals, backslash-escapes and `.` into
atoms. -/
def parsePattern : List Char → List PatChar
  | [] => []
  | '\\' :: c :: rest => .lit c :: parsePattern rest
  | '.' :: rest => .any :: parsePattern rest
  | c :: rest => .lit c :: parsePattern rest

/-- Does the atom sequence match a prefix of `cs`?  (`PatChar.any` is the
Python `.`: any character except a newline.) -/
def matchesAtFront : List PatChar → List Char → Bool
  | [], _ => true
  | _ :: _, [] => false
  | .lit c :: ps, d :: ds => c == d && matchesAtFront ps ds
  | .any :: ps, d :: ds => d != '\n' && matchesAtFront ps ds

/-- Python `re.search` restricted to this fragment: does the pattern match
at some position of `cs` (positions `0..cs.length` inclusive)? -/
def reSearchChars (p : List PatChar) : List Char → Bool
  | [] => matchesAtFront p []
  | c :: rest => matchesAtFront p (c :: rest) || reSearchChars p rest

/-- Python `str.splitlines` for the `\n`, `\r\n` and `\r` line breaks (the
logs at hand use `\n`): no entry for text after a final line terminator, and
the empty string has no lines. -/
def splitlinesAux : List Char → List Char → List (List Char)
  | [], [] => []
  | [], acc => [acc.reverse]
  | '\r' :: '\n' :: rest, acc => acc.reverse :: splitlinesAux rest []
  | '\n' :: rest, acc => acc.reverse :: splitlinesAux rest []
  | '\r' :: rest, acc => acc.reverse :: splitlinesAux rest []
  | c :: rest, acc => splitlinesAux rest (c :: acc)

def splitlines (s : String) : List (List Char) := splitlinesAux s.data []

/-!
### IssuesFinder
-/

/-- Inner loop of `IssuesFinder.match_ordered_strings`: scan the lines until
one matches (the Python loop sets `found = True` and breaks). -/
def searchLines (p : List PatChar) : List (List Char) → Bool
  | [] => false
  | line :: rest => if reSearchChars p line then true else searchLines p rest

/-- Translation of `IssuesFinder.match_ordered_strings(log, targets)`: one
`found` flag per target (was the target found on some line of `log`?), all
of which must be true.  The Python code collects the flags into the set
`found_all` and returns `all(found_all)`; `all` over the set of flags equals
`all` over the list of flags, which is how it is written here.  (The
`line_count` variable of the source is never read.) -/
def match_ordered_strings (log : String) (targets : List (List PatChar)) : Bool :=
  (targets.map fun target => searchLines target (splitlines log)).all fun found => found

/-- Patterns of `issue_fail_to_get_project_during_cleanup`, parsed. -/
def re_strings : List (List PatChar) :=
  [parsePattern "=== After Scenario:".data,
   parsePattern "the server is currently unable to handle the request \\(get projects.project.openshift.io\\)".data,
   parsePattern "RuntimeError: error getting projects by user".data]

def cleanupIssueDesc : String :=
  "After scenario RuntimeError raised while getting project during cleanup."

/-- Translation of `IssuesFinder.issue_fail_to_get_project_during_cleanup`:
the rule returns its description when all three patterns are found, and
(implicitly, in Python) `None` otherwise. -/
def issue_fail_to_get_project_during_cleanup (log_text : String) : Option String :=
  if match_ordered_strings log_text re_strings then some cleanupIssueDesc else none

/-- Registry of issue rules as `get_issue_methods` produces it: the bound
`issue_*` methods.  (`dir(self)` sorts attribute names; with the single
registered method the order is trivially the registration order.) -/
def issue_methods : List (String → Option String) :=
  [issue_fail_to_get_project_during_cleanup]

/-- Loop of `IssuesFinder.find_issues` over the issue methods:
`self.issues_found` enters as the accumulator and every non-`None` result is
appended to it. -/
def find_issues_loop (methods : List (String → Option String)) (log_text : String)
    (issues_found : List String) : List String :=
  match methods with
  | [] => issues_found
  | m :: rest =>
    match m log_text with
    | some known_issue => find_issues_loop rest log_text (issues_found ++ [known_issue])
    | none => find_issues_loop rest log_text issues_found

/-!
### LogFetcher (`get_file_from_url`)
-/

/-- Outcome of one attempt of
`urllib.request.urlopen(url).read().decode("utf8")`: the decoded text, an
`http.client.IncompleteRead`, or any other exception (DNS failure, HTTP
error, decode error, ...). -/
inductive FetchOutcome where
  | ok (content : String)
  | incompleteRead
  | otherError
deriving DecidableEq, Repr

/-- What a call of `get_file_from_url` does: return the decoded content,
raise `UnboundLocalError` at `return content` (the name was never assigned,
which happens exactly when every attempt raised `IncompleteRead`), or let a
non-`IncompleteRead` exception propagate out of the loop. -/
inductive FetchResult where
  | content (s : String)
  | unboundLocalError
  | propagated
deriving DecidableEq, Repr

/-- Loop of `get_file_from_url` with `n` iterations left and next attempt
index `i`; the second component counts the attempts actually performed.
`IncompleteRead` is caught and the loop continues; success breaks; any
other exception propagates immediately. -/
def fetchLoop (fetch : Nat → FetchOutcome) (i : Nat) : Nat → FetchResult × Nat
  | 0 => (.unboundLocalError, 0)
  | n + 1 =>
    match fetch i with
    | .ok s => (.content s, 1)
    | .otherError => (.propagated, 1)
    | .incompleteRead =>
      let p := fetchLoop fetch (i + 1) n
      (p.1, p.2 + 1)

/-- Translation of `IssuesFinder.get_file_from_url`: `for i in range(3)`,
with the transfer of attempt `i` given by the oracle `fetch i` (each attempt
is a fresh full request).  Returns what the call does together with how many
attempts were performed. -/
def get_file_from_url (fetch : Nat → FetchOutcome) : FetchResult × Nat :=
  fetchLoop fetch 0 3

/-- Exceptions the modelled fragments can raise. -/
inductive PyErr where
  | unboundLocal
  | attributeError
  | networkError
deriving DecidableEq, Repr

/-- Translation of `IssuesFinder.find_issues(test_info)` given the fetch
oracle and the instance state `self.issues_found`: when `test_info["logs"]`
is not `None` the log is downloaded and every issue method's non-`None`
result is appended to `issues_found`, which is returned either way.  A
download that raises surfaces as the corresponding error. -/
def find_issues (fetch : String → Nat → FetchOutcome) (issues_found : List String)
    (logs : Option String) : Except PyErr (List String) :=
  match logs with
  | none => .ok issues_found
  | some url =>
    match (get_file_from_url (fetch url)).1 with
    | .content log_text => .ok (find_issues_loop issue_methods log_text issues_found)
    | .unboundLocalError => .error .unboundLocal
    | .propagated => .error .networkError

/-!
### Field extraction helpers
-/

/-- Does the literal character sequence `lit` begin `cs`? -/
def startsWithLit : List Char → List Char → Bool
  | [], _ => true
  | _ :: _, [] => false
  | l :: ls, c :: cs => l == c && startsWithLit ls cs

/-- Greedy `.*` followed by the atoms `tail` (Python backtracking: the
longest prefix of `cs` containing no newline after which `tail` matches a
prefix of the rest).  Returns the characters the `.*` consumed — the group
text left of `tail`. -/
def greedyStar (tail : List PatChar) : List Char → Option (List Char)
  | [] => if matchesAtFront tail [] then some [] else none
  | c :: rest =>
    match (if c = '\n' then none else (greedyStar tail rest).map fun r => c :: r) with
    | some r => some r
    | none => if matchesAtFront tail (c :: rest) then some [] else none

def httpScan : List Char → Option String
  | [] => none
  | c :: rest =>
    if startsWithLit "http".data (c :: rest) then
      some (String.mk ((c :: rest).takeWhile fun d => d != '\n'))
    else httpScan rest

/-- Translation of `get_link_to_log`: `re.search("(http.*)", content)` —
capture from the leftmost `http` greedily to the end of its line — else
`None`. -/
def get_link_to_log (content : String) : Option String := httpScan content.data

/-- One entry of the custom-field list: `cf["key"]` and
`cf["value"]["content"]`. -/
structure CField where
  key : String
  content : String
deriving DecidableEq, Repr

/-- Atoms of `"file: (features.*feature)\n"` after its `.*`: the literal
`feature` then the literal newline. -/
def featureTail : List PatChar := "feature\n".data.map .lit

def featureMatchAt (cs : List Char) : Option String :=
  if startsWithLit "file: features".data cs then
    (greedyStar featureTail (cs.drop 14)).map fun mid =>
      "features" ++ String.mk mid ++ "feature"
  else none

def featureScan : List Char → Option String
  | [] => none
  | c :: rest =>
    match featureMatchAt (c :: rest) with
    | some cap => some cap
    | none => featureScan rest

/-- Group `features.*feature` of
`re.search("file: (features.*feature)\\n", script)`: at the leftmost
occurrence of `file: features`, the greedy `.*`, then `feature` and a
newline; the capture spans `features` .. `feature`. -/
def searchFeatureFile (script : String) : Option String := featureScan script.data

/-- Translation of `get_automation_script(cfields)`: the first field keyed
`automation_script` has the feature-file pattern extracted from its content.
No such field leaves the local `automation_script` unassigned
(`UnboundLocalError` at `return`), and a content without the pattern makes
`m.groups()` raise `AttributeError`; neither is caught. -/
def get_automation_script (cfields : List CField) : Except PyErr String :=
  match cfields.find? (fun cf => cf.key == "automation_script") with
  | none => .error .unboundLocal
  | some cf =>
    match searchFeatureFile cf.content with
    | some automation_script => .ok automation_script
    | none => .error .attributeError

/-- Python `\s` on ASCII text: the whitespace the author pattern can skip. -/
def isPySpace (c : Char) : Bool :=
  c == ' ' || c == '\t' || c == '\n' || c == '\r' || c == '\x0b' || c == '\x0c'

/-- Python `str.rstrip()` on ASCII text. -/
def pyRstrip (s : String) : String :=
  String.mk ((s.data.reverse.dropWhile isPySpace).reverse)

/-- Atoms of `"author\s*(.*)@redhat.com"` after its group: `@redhat.com`,
the dots being the any-character atom. -/
def authorTail : List PatChar := parsePattern "@redhat.com".data

def authorMatchAt (cs : List Char) : Option String :=
  if startsWithLit "author".data cs then
    (greedyStar authorTail ((cs.drop 6).dropWhile isPySpace)).map String.mk
  else none

def authorScan : List Char → Option String
  | [] => none
  | c :: rest =>
    match authorMatchAt (c :: rest) with
    | some cap => some cap
    | none => authorScan rest

/-- Group of `re.search("author\s*(.*)@redhat.com", s)`.  The greedy `\s*`
can always take its maximal run: shrinking it only moves the `(.*)` start
left inside whitespace, where the literal `@` that must follow the group
cannot occur, and the `(.*)` itself may consume any non-newline whitespace,
so no backtracking over `\s*` is needed. -/
def searchAuthor (s : String) : Option String := authorScan s.data

/-- Outcome of the `subprocess.check_output` call of `get_owner`: a raised
`CalledProcessError`, or the command's decoded stdout. -/
inductive OwnerLookup where
  | raised
  | output (s : String)
deriving DecidableEq, Repr

/-- Translation of `get_owner`: a `CalledProcessError` is caught and the
sentinel `"Not found"` returned; otherwise the output is right-stripped and
the author pattern's group extracted — `owner.groups()` on a failed search
raises `AttributeError`, which is not caught. -/
def get_owner (lookup : OwnerLookup) : Except PyErr String :=
  match lookup with
  | .raised => .ok "Not found"
  | .output out =>
    match searchAuthor (pyRstrip out) with
    | some owner => .ok owner
    | none => .error .attributeError

/-!
### Profile extraction (`main`)
-/

/-- Does `" - "` begin `cs`? -/
def startsWithSep : List Char → Bool
  | ' ' :: '-' :: ' ' :: _ => true
  | _ => false

/-- Does `cs` contain `" - "`? -/
def hasSep : List Char → Bool
  | [] => false
  | c :: rest => startsWithSep (c :: rest) || hasSep rest

/-- Characters after the last occurrence of `" - "`, when there is one. -/
def afterLastSep : List Char → Option (List Char)
  | [] => none
  | c :: rest =>
    match afterLastSep rest with
    | some r => some r
    | none => if startsWithSep (c :: rest) then some (rest.drop 2) else none

/-- Translation of the profile extraction of `main`:
`re.search(".* - (.*)$", title).groups()[0]`, with `none` modelling the
`AttributeError` of `.groups()` on a failed search.  The greedy leading `.*`
may be empty, so a match hinges only on the text after some `" - "`: the
group `(.*)` cannot cross a newline, `$` anchors at the end of the string or
just before a final newline, and if the text after the *last* `" - "`
violates that then the (longer) text after any earlier one does too.  Hence:
take the text after the last `" - "`; accept it if it is newline-free
(group = that text), or if its only newline is final (group = the text
minus that newline); otherwise the search fails. -/
def extract_profile (title : String) : Option String :=
  match afterLastSep title.data with
  | none => none
  | some tail =>
    if tail.contains '\n' then
      if tail.getLast? == some '\n' && !tail.dropLast.contains '\n' then
        some (String.mk tail.dropLast)
      else none
    else some (String.mk tail)

/-!
### Report aggregation (`main`)
-/

/-- Association list with Python `dict` update semantics. -/
abbrev Dict (α : Type) := List (String × α)

/-- Python `d.get(k)` / `d[k]`. -/
def dictFind {α : Type} : Dict α → String → Option α
  | [], _ => none
  | (k, v) :: rest, key => if k = key then some v else dictFind rest key

/-- Python `d[k] = v` (and `d.update({k: v})`): replace in place when the
key exists, else append. -/
def dictSet {α : Type} : Dict α → String → α → Dict α
  | [], key, val => [(key, val)]
  | (k, v) :: rest, key, val =>
    if k = key then (k, val) :: rest else (k, v) :: dictSet rest key val

/-- One failed test's record, the `failed_test_attrs` dict of `main` (keys
`case`, `logs`, `profile` and optionally `known_issues`); `known_issues` is
`none` when the key is absent, i.e. when no issue matched. -/
structure FailedTestAttrs where
  case_id : String
  logs : Option String
  profile : String
  known_issues : Option (List String)
deriving DecidableEq, Repr

/-- Translation of the aggregation branches of `main` (the nested
`report_struct.get(..., 0)` tests).  The Python truthiness tests there are
on dicts: `get(owner, 0)` is truthy exactly when the key is present with a
non-empty dict, and then likewise one level down.  At the innermost level
both branches perform the same assignment of `failed_test_attrs` (plain
assignment vs `update` of a single key), so they are written once.  The
record payload itself is never inspected, so the insert is polymorphic in
it.  (`report_struct` also carries the top-level `"version"` entry, a
string; it lives outside the owner-keyed tree modelled here and these
branches never touch it.) -/
def insert3 {α : Type} (report_struct : Dict (Dict (Dict α)))
    (owner automation_script id : String) (failed_test_attrs : α) :
    Dict (Dict (Dict α)) :=
  match dictFind report_struct owner with
  | some om =>
    if om.isEmpty then
      dictSet report_struct owner [(automation_script, [(id, failed_test_attrs)])]
    else
      match dictFind om automation_script with
      | some sm =>
        if sm.isEmpty then
          dictSet report_struct owner
            (dictSet om automation_script [(id, failed_test_attrs)])
        else
          dictSet report_struct owner
            (dictSet om automation_script (dictSet sm id failed_test_attrs))
      | none =>
        dictSet report_struct owner
          (dictSet om automation_script [(id, failed_test_attrs)])
  | none => dictSet report_struct owner [(automation_script, [(id, failed_test_attrs)])]

/-- Lookup of `report_struct[owner][automation_script][id]`. -/
def lookup3 {α : Type} (report_struct : Dict (Dict (Dict α)))
    (owner automation_script id : String) : Option α :=
  (dictFind report_struct owner).bind fun om =>
    (dictFind om automation_script).bind fun sm => dictFind sm id

/-- Fields of one entry of `output["records"]["TestRecord"]` that `main`
reads: `record["result"]`, `record["comment"]["content"]`,
`record["test_case"]["id"]` and
`record["test_case"]["customFields"]["Custom"]`. -/
structure TestRecord where
  result : String
  comment_content : String
  test_case_id : String
  customFields : List CField
deriving DecidableEq, Repr

/-- Translation of one iteration of the record loop of `main`, with the two
external effects as oracles: `ownerLookup script id` is the
`subprocess.check_output` outcome inside `get_owner`, and `fetch url i` the
`i`-th download attempt for the record's log.  A raised exception aborts the
iteration (in the script it propagates out of `main`, so nothing more is
inserted for that record). -/
def process_record (ownerLookup : String → String → OwnerLookup)
    (fetch : String → Nat → FetchOutcome)
    (report_struct : Dict (Dict (Dict FailedTestAttrs))) (profile : String)
    (record : TestRecord) : Except PyErr (Dict (Dict (Dict FailedTestAttrs))) :=
  if record.result == "Failed" then
    match get_automation_script record.customFields with
    | .error e => .error e
    | .ok automation_script =>
      match get_owner (ownerLookup automation_script record.test_case_id) with
      | .error e => .error e
      | .ok owner =>
        match find_issues fetch [] (get_link_to_log record.comment_content) with
        | .error e => .error e
        | .ok issues =>
          .ok (insert3 report_struct owner automation_script record.test_case_id
            (if issues.isEmpty then
              ⟨record.test_case_id, get_link_to_log record.comment_content, profile, none⟩
            else
              ⟨record.test_case_id, get_link_to_log record.comment_content, profile,
                some issues⟩))
  else .ok report_struct

end CIMon

namespace CIMon

/-!
### Dictionary lemmas
-/

theorem dictFind_dictSet_self {α : Type} (d : Dict α) (k : String) (v : α) :
    dictFind (dictSet d k v) k = some v := by
  induction d with
  | nil => simp [dictSet, dictFind]
  | cons kv rest ih =>
    obtain ⟨a, b⟩ := kv
    by_cases h : a = k
    · simp [dictSet, dictFind, h]
    · simp [dictSet, dictFind, h, ih]

theorem dictFind_dictSet_other {α : Type} (d : Dict α) (k k' : String) (v : α)
    (h : k' ≠ k) : dictFind (dictSet d k v) k' = dictFind d k' := by
  induction d with
  | nil => simp [dictSet, dictFind, Ne.symm h]
  | cons kv rest ih =>
    obtain ⟨a, b⟩ := kv
    by_cases ha : a = k
    · subst ha
      simp [dictSet, dictFind, Ne.symm h]
    · by_cases ha' : a = k'
      · simp [dictSet, dictFind, ha, ha', h]
      · simp [dictSet, dictFind, ha, ha', ih]

theorem insert3_eq_dictSet {α : Type} (r : Dict (Dict (Dict α))) (o s c : String) (v : α) :
    ∃ om, insert3 r o s c v = dictSet r o om := by
  unfold insert3
  split
  · split
    · exact ⟨_, rfl⟩
    · split
      · split
        · exact ⟨_, rfl⟩
        · exact ⟨_, rfl⟩
      · exact ⟨_, rfl⟩
  · exact ⟨_, rfl⟩

theorem lookup3_insert3_self {α : Type} (r : Dict (Dict (Dict α))) (o s c : String)
    (v : α) : lookup3 (insert3 r o s c v) o s c = some v := by
  cases hfo : dictFind r o with
  | none => simp [insert3, hfo, lookup3, dictFind_dictSet_self, dictFind]
  | some om =>
    by_cases hom : om.isEmpty
    · simp [insert3, hfo, hom, lookup3, dictFind_dictSet_self, dictFind]
    · cases hfs : dictFind om s with
      | none => simp [insert3, hfo, hom, hfs, lookup3, dictFind_dictSet_self, dictFind]
      | some sm =>
        by_cases hsm : sm.isEmpty
        · simp [insert3, hfo, hom, hfs, hsm, lookup3, dictFind_dictSet_self, dictFind]
        · simp [insert3, hfo, hom, hfs, hsm, lookup3, dictFind_dictSet_self]

theorem lookup3_insert3_other {α : Type} (r : Dict (Dict (Dict α)))
    (o s c o' s' c' : String) (v : α) (h : ¬(o' = o ∧ s' = s ∧ c' = c)) :
    lookup3 (insert3 r o s c v) o' s' c' = lookup3 r o' s' c' := by
  by_cases ho' : o' = o
  · subst ho'
    by_cases hs' : s' = s
    · subst hs'
      have hc' : c' ≠ c := fun hc => h ⟨rfl, rfl, hc⟩
      cases hfo : dictFind r o' with
      | none => simp [insert3, hfo, lookup3, dictFind_dictSet_self, dictFind, Ne.symm hc']
      | some om =>
        by_cases hom : om.isEmpty
        · have hom' : om = [] := List.isEmpty_iff.mp hom
          subst hom'
          simp [insert3, hfo, lookup3, dictFind_dictSet_self, dictFind, Ne.symm hc']
        · cases hfs : dictFind om s' with
          | none =>
            simp [insert3, hfo, hom, hfs, lookup3, dictFind_dictSet_self, dictFind,
              Ne.symm hc']
          | some sm =>
            by_cases hsm : sm.isEmpty
            · have hsm' : sm = [] := List.isEmpty_iff.mp hsm
              subst hsm'
              simp [insert3, hfo, hom, hfs, lookup3, dictFind_dictSet_self, dictFind,
                Ne.symm hc']
            · simp [insert3, hfo, hom, hfs, hsm, lookup3, dictFind_dictSet_self,
                dictFind_dictSet_other _ _ _ _ hc']
    · cases hfo : dictFind r o' with
      | none => simp [insert3, hfo, lookup3, dictFind_dictSet_self, dictFind, Ne.symm hs']
      | some om =>
        by_cases hom : om.isEmpty
        · have hom' : om = [] := List.isEmpty_iff.mp hom
          subst hom'
          simp [insert3, hfo, lookup3, dictFind_dictSet_self, dictFind, Ne.symm hs']
        · cases hfs : dictFind om s with
          | none =>
            simp [insert3, hfo, hom, hfs, lookup3, dictFind_dictSet_self,
              dictFind_dictSet_other _ _ _ _ hs']
          | some sm =>
            by_cases hsm : sm.isEmpty
            · simp [insert3, hfo, hom, hfs, hsm, lookup3, dictFind_dictSet_self,
                dictFind_dictSet_other _ _ _ _ hs']
            · simp [insert3, hfo, hom, hfs, hsm, lookup3, dictFind_dictSet_self,
                dictFind_dictSet_other _ _ _ _ hs']
  · obtain ⟨om, heq⟩ := insert3_eq_dictSet r o s c v
    rw [heq]
    simp [lookup3, dictFind_dictSet_other _ _ _ _ ho']

end CIMon

namespace CIMon

/-!
### Classifier lemmas
-/

theorem searchLines_iff (p : List PatChar) (lines : List (List Char)) :
    searchLines p lines = true ↔ ∃ line ∈ lines, reSearchChars p line = true := by
  induction lines with
  | nil => simp [searchLines]
  | cons l rest ih =>
    cases hl : reSearchChars p l with
    | true =>
      refine iff_of_true ?_ ⟨l, List.mem_cons_self l rest, hl⟩
      simp [searchLines, hl]
    | false =>
      rw [show searchLines p (l :: rest) = searchLines p rest by simp [searchLines, hl]]
      rw [ih]
      constructor
      · rintro ⟨x, hx, hxs⟩
        exact ⟨x, List.mem_cons_of_mem _ hx, hxs⟩
      · rintro ⟨x, hx, hxs⟩
        rcases List.mem_cons.mp hx with h1 | h1
        · subst h1
          rw [hxs] at hl
          cases hl
        · exact ⟨x, h1, hxs⟩

theorem match_ordered_strings_iff (log : String) (targets : List (List PatChar)) :
    match_ordered_strings log targets = true ↔
      ∀ p ∈ targets, ∃ line ∈ splitlines log, reSearchChars p line = true := by
  unfold match_ordered_strings
  rw [List.all_eq_true]
  constructor
  · intro h p hp
    exact (searchLines_iff p (splitlines log)).mp (h _ (List.mem_map_of_mem _ hp))
  · intro h b hb
    obtain ⟨p, hp, rfl⟩ := List.mem_map.mp hb
    exact (searchLines_iff p (splitlines log)).mpr (h p hp)

theorem find_issues_loop_acc (methods : List (String → Option String)) (log_text : String)
    (issues_found : List String) :
    find_issues_loop methods log_text issues_found =
      issues_found ++ find_issues_loop methods log_text [] := by
  induction methods generalizing issues_found with
  | nil => simp [find_issues_loop]
  | cons m rest ih =>
    cases hm : m log_text with
    | some k =>
      simp only [find_issues_loop, hm]
      rw [ih (issues_found ++ [k]), ih ([] ++ [k])]
      simp
    | none =>
      simp only [find_issues_loop, hm]
      exact ih issues_found

/-!
### Fetch-loop lemmas
-/

theorem fetchLoop_attempts_le (fetch : Nat → FetchOutcome) (n : Nat) :
    ∀ i, (fetchLoop fetch i n).2 ≤ n := by
  induction n with
  | zero => intro i; simp [fetchLoop]
  | succ n ih =>
    intro i
    cases hf : fetch i with
    | ok s => simp [fetchLoop, hf]
    | otherError => simp [fetchLoop, hf]
    | incompleteRead =>
      simp only [fetchLoop, hf]
      exact Nat.succ_le_succ (ih (i + 1))

theorem fetchLoop_agree (f g : Nat → FetchOutcome) (n : Nat) :
    ∀ i, (∀ k, k < n → f (i + k) = g (i + k)) → fetchLoop f i n = fetchLoop g i n := by
  induction n with
  | zero => intro i _; rfl
  | succ n ih =>
    intro i h
    have h0 : f i = g i := by simpa using h 0 (Nat.succ_pos n)
    have hrest : fetchLoop f (i + 1) n = fetchLoop g (i + 1) n := by
      refine ih (i + 1) fun k hk => ?_
      have := h (k + 1) (Nat.succ_lt_succ hk)
      rwa [show i + (k + 1) = i + 1 + k by omega] at this
    simp only [fetchLoop, h0]
    cases g i with
    | ok s => rfl
    | otherError => rfl
    | incompleteRead => rw [hrest]

theorem fetchLoop_all_trunc (f : Nat → FetchOutcome) (n : Nat) :
    ∀ i, (∀ k, k < n → f (i + k) = .incompleteRead) →
      fetchLoop f i n = (.unboundLocalError, n) := by
  induction n with
  | zero => intro i _; rfl
  | succ n ih =>
    intro i h
    have h0 : f i = .incompleteRead := by simpa using h 0 (Nat.succ_pos n)
    have hrest : fetchLoop f (i + 1) n = (.unboundLocalError, n) := by
      refine ih (i + 1) fun k hk => ?_
      have := h (k + 1) (Nat.succ_lt_succ hk)
      rwa [show i + (k + 1) = i + 1 + k by omega] at this
    simp [fetchLoop, h0, hrest]

theorem fetchLoop_success (f : Nat → FetchOutcome) (s : String) :
    ∀ j i n, j < n → (∀ k, k < j → f (i + k) = .incompleteRead) → f (i + j) = .ok s →
      fetchLoop f i n = (.content s, j + 1) := by
  intro j
  induction j with
  | zero =>
    intro i n hn hpre hok
    cases n with
    | zero => omega
    | succ m =>
      have h0 : f i = .ok s := by simpa using hok
      simp [fetchLoop, h0]
  | succ j ih =>
    intro i n hn hpre hok
    cases n with
    | zero => omega
    | succ m =>
      have h0 : f i = .incompleteRead := by simpa using hpre 0 (Nat.succ_pos j)
      have hrest : fetchLoop f (i + 1) m = (.content s, j + 1) := by
        refine ih (i + 1) m (by omega) (fun k hk => ?_) ?_
        · have := hpre (k + 1) (Nat.succ_lt_succ hk)
          rwa [show i + (k + 1) = i + 1 + k by omega] at this
        · rwa [show i + (j + 1) = i + 1 + j by omega] at hok
      simp [fetchLoop, h0, hrest]

/-!
### Profile-extraction lemmas
-/

theorem afterLastSep_of_hasSep_false (cs : List Char) (h : hasSep cs = false) :
    afterLastSep cs = none := by
  induction cs with
  | nil => rfl
  | cons c rest ih =>
    simp only [hasSep, Bool.or_eq_false_iff] at h
    simp [afterLastSep, ih h.2, h.1]

theorem afterLastSep_append (prof : List Char) (h : hasSep ('-' :: ' ' :: prof) = false) :
    ∀ pre : List Char, afterLastSep (pre ++ ' ' :: '-' :: ' ' :: prof) = some prof := by
  intro pre
  induction pre with
  | nil =>
    have hnone : afterLastSep ('-' :: ' ' :: prof) = none :=
      afterLastSep_of_hasSep_false _ h
    show afterLastSep (' ' :: '-' :: ' ' :: prof) = some prof
    rw [afterLastSep, hnone]
    rfl
  | cons c pre ih =>
    show afterLastSep (c :: (pre ++ ' ' :: '-' :: ' ' :: prof)) = some prof
    rw [afterLastSep, ih]

theorem extract_profile_after_last (pre prof : String)
    (hsep : hasSep ('-' :: ' ' :: prof.data) = false)
    (hnl : prof.data.contains '\n' = false) :
    extract_profile (pre ++ " - " ++ prof) = some prof := by
  have hsepdata : (" - ").data = [' ', '-', ' '] := rfl
  have hdata : (pre ++ " - " ++ prof).data = pre.data ++ ' ' :: '-' :: ' ' :: prof.data := by
    simp [String.data_append, hsepdata]
  unfold extract_profile
  rw [hdata, afterLastSep_append prof.data hsep pre.data]
  simp only [hnl]
  rfl

end CIMon

namespace CIMon

/-- Log text containing, on separate lines, matches for all three patterns
of the cleanup rule. -/
def sampleLog : String :=
  "=== After Scenario: cleanup\nError: the server is currently unable to handle the request (get projects.project.openshift.io)\nRuntimeError: error getting projects by user tester"

/-- Claim C1: a classifier rule matches exactly when each of its configured
patterns matches some line of the log, each pattern checked independently
with no requirement on relative order; in particular the registered rule
yields exactly `[cleanupIssueDesc]` on a log where every one of its three
patterns matches some line, and `[]` on a log where some pattern matches no
line. -/
theorem C1_rule_matching (log : String) (targets : List (List PatChar)) :
    (match_ordered_strings log targets = true ↔
      ∀ p ∈ targets, ∃ line ∈ splitlines log, reSearchChars p line = true)
    ∧ (find_issues_loop issue_methods log [] =
        if match_ordered_strings log re_strings then [cleanupIssueDesc] else [])
    ∧ ((∀ p ∈ re_strings, ∃ line ∈ splitlines log, reSearchChars p line = true) →
        find_issues_loop issue_methods log [] = [cleanupIssueDesc])
    ∧ ((∃ p ∈ re_strings, ∀ line ∈ splitlines log, reSearchChars p line = false) →
        find_issues_loop issue_methods log [] = []) := by
  have hif : find_issues_loop issue_methods log [] =
      if match_ordered_strings log re_strings then [cleanupIssueDesc] else [] := by
    by_cases hm : match_ordered_strings log re_strings = true
    · simp [find_issues_loop, issue_methods, issue_fail_to_get_project_during_cleanup, hm]
    · simp [find_issues_loop, issue_methods, issue_fail_to_get_project_during_cleanup, hm]
  refine ⟨match_ordered_strings_iff log targets, hif, ?_, ?_⟩
  · intro hall
    have hmos := (match_ordered_strings_iff log re_strings).mpr hall
    rw [hif, hmos]
    simp
  · rintro ⟨p, hp, hnone⟩
    have hfalse : match_ordered_strings log re_strings = false := by
      cases hmos : match_ordered_strings log re_strings with
      | true =>
        obtain ⟨line, hline, htrue⟩ := (match_ordered_strings_iff log re_strings).mp hmos p hp
        rw [hnone line hline] at htrue
        cases htrue
      | false => rfl
    rw [hif, hfalse]
    simp

/-- Concrete check for C1: scenario A (all three lines present, in any
order, here all present) yields exactly the one description; scenario B
(third pattern's line missing) yields the empty list. -/
theorem C1_witness :
    find_issues_loop issue_methods sampleLog [] = [cleanupIssueDesc]
    ∧ find_issues_loop issue_methods
        "=== After Scenario:\nthe server is currently unable to handle the request (get projects.project.openshift.io)" [] =
      [] :=
  ⟨rfl, rfl⟩

/-- Claim C2: `get_file_from_url` performs at most 3 attempts for any fetch
behaviour; a URL that always raises the transient truncation error is tried
exactly 3 times; the result never depends on any attempt beyond the first
3 (a 4th attempt never occurs); and a successful attempt stops further
attempts, returning its content. -/
theorem C2_retry_bound (f g : Nat → FetchOutcome) (s : String) (j : Nat)
    (hj : j < 3)
    (hpre : ∀ k, k < j → f k = .incompleteRead)
    (hok : f j = .ok s)
    (htr : ∀ k, k < 3 → g k = .incompleteRead) :
    (∀ fe : Nat → FetchOutcome, (get_file_from_url fe).2 ≤ 3)
    ∧ (get_file_from_url g).2 = 3
    ∧ (∀ f1 f2 : Nat → FetchOutcome, (∀ k, k < 3 → f1 k = f2 k) →
        get_file_from_url f1 = get_file_from_url f2)
    ∧ get_file_from_url f = (.content s, j + 1) := by
  refine ⟨fun fe => fetchLoop_attempts_le fe 3 0, ?_, ?_, ?_⟩
  · have h3 := fetchLoop_all_trunc g 3 0 (fun k hk => by simpa using htr k hk)
    rw [get_file_from_url, h3]
  · intro f1 f2 h12
    exact fetchLoop_agree f1 f2 3 0 (fun k hk => by simpa using h12 k hk)
  · exact fetchLoop_success f s j 0 3 hj (fun k hk => by simpa using hpre k hk)
      (by simpa using hok)

/-- Concrete check for C2: an always-truncating fetch is attempted exactly
3 times, and a fetch succeeding on its second attempt stops after 2. -/
theorem C2_witness :
    (∀ fe : Nat → FetchOutcome, (get_file_from_url fe).2 ≤ 3)
    ∧ (get_file_from_url (fun _ => FetchOutcome.incompleteRead)).2 = 3
    ∧ (∀ f1 f2 : Nat → FetchOutcome, (∀ k, k < 3 → f1 k = f2 k) →
        get_file_from_url f1 = get_file_from_url f2)
    ∧ get_file_from_url
        (fun i => if i == 1 then FetchOutcome.ok "log" else FetchOutcome.incompleteRead) =
      (FetchResult.content "log", 1 + 1) :=
  C2_retry_bound
    (fun i => if i == 1 then FetchOutcome.ok "log" else FetchOutcome.incompleteRead)
    (fun _ => FetchOutcome.incompleteRead) "log" 1 (by omega) (by decide) rfl
    (fun _ _ => rfl)

/-- Claim C3 (amended): when every one of the 3 attempts raises the
transient truncation error, `get_file_from_url` does NOT return normally:
the local `content` was never assigned, so `return content` raises
`UnboundLocalError`, which surfaces to the caller. -/
theorem C3_exhausted_truncation_raises (f : Nat → FetchOutcome)
    (h : ∀ k, k < 3 → f k = .incompleteRead) :
    get_file_from_url f = (.unboundLocalError, 3) := by
  have h3 := fetchLoop_all_trunc f 3 0 (fun k hk => by simpa using h k hk)
  rw [get_file_from_url, h3]

/-- Counterexample to C3 as stated: with every attempt truncated, the call
raises (`UnboundLocalError`) instead of returning content. -/
theorem C3_counterexample :
    (get_file_from_url fun _ => FetchOutcome.incompleteRead).1 =
      FetchResult.unboundLocalError := rfl

/-- Concrete check for the amended C3. -/
theorem C3_witness :
    get_file_from_url (fun _ => FetchOutcome.incompleteRead) =
      (FetchResult.unboundLocalError, 3) :=
  C3_exhausted_truncation_raises _ (fun _ _ => rfl)

/-- Claim C4: inserting twice at the same `(owner, script, case)` path with
different payloads leaves exactly the second payload at that path
(last-write-wins, no merging), and every other path of the report is
unchanged. -/
theorem C4_last_write_wins {α : Type} (r : Dict (Dict (Dict α)))
    (o s c : String) (v1 v2 : α) (_hne : v1 ≠ v2) :
    lookup3 (insert3 (insert3 r o s c v1) o s c v2) o s c = some v2
    ∧ ∀ o' s' c' : String, ¬(o' = o ∧ s' = s ∧ c' = c) →
        lookup3 (insert3 (insert3 r o s c v1) o s c v2) o' s' c' = lookup3 r o' s' c' := by
  refine ⟨lookup3_insert3_self _ o s c v2, fun o' s' c' h => ?_⟩
  rw [lookup3_insert3_other _ o s c o' s' c' v2 h,
    lookup3_insert3_other _ o s c o' s' c' v1 h]

/-- Concrete check for C4 at the path of the spec's P3. -/
theorem C4_witness :
    lookup3
      (insert3
        (insert3 ([] : Dict (Dict (Dict FailedTestAttrs))) "alice" "s.feature" "T1"
          ⟨"T1", some "http://logs/run1", "aws-ipi", none⟩)
        "alice" "s.feature" "T1" ⟨"T1", some "http://logs/run2", "aws-ipi", none⟩)
      "alice" "s.feature" "T1" =
      some ⟨"T1", some "http://logs/run2", "aws-ipi", none⟩ :=
  (C4_last_write_wins [] "alice" "s.feature" "T1" _ _ (by decide)).1

/-- Claim C5: the classifier's output is exactly the non-`None` detector
results in registry order — the matched subsequence of the evaluation
order — for every registry and every log text. -/
theorem C5_registration_order (methods : List (String → Option String)) (log_text : String) :
    find_issues_loop methods log_text [] = methods.filterMap (fun m => m log_text)
    ∧ methods.filterMap (fun m => m log_text) =
        (methods.filter fun m => (m log_text).isSome).map fun m => (m log_text).getD "" := by
  constructor
  · induction methods with
    | nil => rfl
    | cons m rest ih =>
      cases hm : m log_text with
      | some k =>
        simp only [find_issues_loop, hm, List.filterMap_cons]
        rw [find_issues_loop_acc]
        simp [ih]
      | none => simp [find_issues_loop, hm, List.filterMap_cons, ih]
  · induction methods with
    | nil => rfl
    | cons m rest ih =>
      cases hm : m log_text with
      | some k => simp [List.filterMap_cons, List.filter_cons, hm, ih]
      | none => simp [List.filterMap_cons, List.filter_cons, hm, ih]

/-- Concrete check for C5: of three rules the first and third match, and
the output lists their descriptions in registry order. -/
theorem C5_witness :
    find_issues_loop
      [fun _ => some "first", fun _ => none, fun _ => some "third"] "any log" [] =
      ["first", "third"] := rfl

/-- Claim C6 (amended): classification is a pure function of the log text
only from a fresh classifier state; invoking `find_issues` twice on the
same instance is not idempotent — `self.issues_found` persists, so the
second call returns the first call's result with the matched descriptions
appended once more. -/
theorem C6_classification_accumulates (methods : List (String → Option String))
    (log_text : String) :
    find_issues_loop methods log_text (find_issues_loop methods log_text []) =
      find_issues_loop methods log_text [] ++ find_issues_loop methods log_text [] :=
  find_issues_loop_acc methods log_text (find_issues_loop methods log_text [])

/-- Counterexample to C6 as stated: on a log matched by the registered
rule, the first `find_issues` call returns one description and the second
call on the same instance returns it twice — the two ordered sequences
differ. -/
theorem C6_counterexample :
    find_issues (fun _ _ => FetchOutcome.ok sampleLog) [] (some "http://x/log") =
      Except.ok [cleanupIssueDesc]
    ∧ find_issues (fun _ _ => FetchOutcome.ok sampleLog) [cleanupIssueDesc]
        (some "http://x/log") = Except.ok [cleanupIssueDesc, cleanupIssueDesc]
    ∧ [cleanupIssueDesc, cleanupIssueDesc] ≠ [cleanupIssueDesc] :=
  ⟨rfl, rfl, by simp⟩

/-- Claim C7: when the external ownership lookup fails
(`CalledProcessError`), `get_owner` returns exactly `"Not found"`, and the
record is still processed and aggregated under that sentinel owner key. -/
theorem C7_owner_sentinel (report_struct : Dict (Dict (Dict FailedTestAttrs)))
    (profile : String) (record : TestRecord) (fetch : String → Nat → FetchOutcome)
    (ascript : String) (issues : List String)
    (hres : record.result = "Failed")
    (hscript : get_automation_script record.customFields = .ok ascript)
    (hissues : find_issues fetch [] (get_link_to_log record.comment_content) = .ok issues) :
    get_owner .raised = .ok "Not found"
    ∧ process_record (fun _ _ => .raised) fetch report_struct profile record =
        .ok (insert3 report_struct "Not found" ascript record.test_case_id
          (if issues.isEmpty then
            ⟨record.test_case_id, get_link_to_log record.comment_content, profile, none⟩
          else
            ⟨record.test_case_id, get_link_to_log record.comment_content, profile,
              some issues⟩)) := by
  refine ⟨rfl, ?_⟩
  unfold process_record
  rw [show (record.result == "Failed") = true by simp [hres], hscript, hissues]
  rfl

/-- Concrete check for C7: a failed record whose ownership lookup raises is
inserted under the owner key `"Not found"`. -/
theorem C7_witness :
    get_owner OwnerLookup.raised = Except.ok "Not found"
    ∧ process_record (fun _ _ => OwnerLookup.raised)
        (fun _ _ => FetchOutcome.ok "clean log") [] "aws-ipi"
        ⟨"Failed", "logs at http://h/l.txt", "OCP-123",
          [⟨"automation_script", "file: features/x.feature\nend"⟩]⟩ =
      Except.ok (insert3 [] "Not found" "features/x.feature" "OCP-123"
        (if List.isEmpty ([] : List String) then
          ⟨"OCP-123", get_link_to_log "logs at http://h/l.txt", "aws-ipi", none⟩
        else
          ⟨"OCP-123", get_link_to_log "logs at http://h/l.txt", "aws-ipi", some []⟩)) :=
  C7_owner_sentinel [] "aws-ipi"
    ⟨"Failed", "logs at http://h/l.txt", "OCP-123",
      [⟨"automation_script", "file: features/x.feature\nend"⟩]⟩
    (fun _ _ => FetchOutcome.ok "clean log") "features/x.feature" [] rfl rfl rfl

/-- Claim C9: a failed record without an `automation_script` custom field,
or whose field content lacks the feature-file pattern, makes
`get_automation_script` raise (`UnboundLocalError` resp. `AttributeError`)
rather than return, and the record's processing aborts with that error —
nothing is aggregated for it. -/
theorem C9_script_extraction_hard_error (cfields : List CField)
    (ownerLookup : String → String → OwnerLookup) (fetch : String → Nat → FetchOutcome)
    (report_struct : Dict (Dict (Dict FailedTestAttrs))) (profile : String)
    (record : TestRecord) (e : PyErr)
    (hres : record.result = "Failed")
    (herr : get_automation_script record.customFields = .error e) :
    (cfields.find? (fun cf => cf.key == "automation_script") = none →
      get_automation_script cfields = .error .unboundLocal)
    ∧ (∀ cf : CField, cfields.find? (fun cf => cf.key == "automation_script") = some cf →
        searchFeatureFile cf.content = none →
        get_automation_script cfields = .error .attributeError)
    ∧ process_record ownerLookup fetch report_struct profile record = .error e := by
  refine ⟨?_, ?_, ?_⟩
  · intro h
    simp [get_automation_script, h]
  · intro cf hcf hs
    simp [get_automation_script, hcf, hs]
  · unfold process_record
    rw [show (record.result == "Failed") = true by simp [hres], herr]
    rfl

/-- Concrete check for C9: a failed record with no `automation_script`
field aborts with `UnboundLocalError` and nothing is inserted. -/
theorem C9_witness :
    (([⟨"automation_script", "no such pattern"⟩] : List CField).find?
        (fun cf => cf.key == "automation_script") = none →
      get_automation_script [⟨"automation_script", "no such pattern"⟩] =
        .error .unboundLocal)
    ∧ (∀ cf : CField,
        ([⟨"automation_script", "no such pattern"⟩] : List CField).find?
            (fun cf => cf.key == "automation_script") = some cf →
        searchFeatureFile cf.content = none →
        get_automation_script [⟨"automation_script", "no such pattern"⟩] =
          .error .attributeError)
    ∧ process_record (fun _ _ => OwnerLookup.raised)
        (fun _ _ => FetchOutcome.incompleteRead) [] "aws-ipi"
        ⟨"Failed", "no link", "OCP-9", []⟩ = .error PyErr.unboundLocal :=
  C9_script_extraction_hard_error [⟨"automation_script", "no such pattern"⟩]
    (fun _ _ => OwnerLookup.raised) (fun _ _ => FetchOutcome.incompleteRead) []
    "aws-ipi" ⟨"Failed", "no link", "OCP-9", []⟩ PyErr.unboundLocal rfl rfl

/-- Claim C8 (amended): for a title decomposed as `pre ++ " - " ++ prof`
where `prof` contains no further separator and no newline, the extracted
profile is exactly `prof` — the text after the last `" - "`; a title with
no `" - "` at all fails the pattern, a hard error that propagates
(modelled as `none`). -/
theorem C8_profile_after_last_sep (pre prof t : String)
    (hsep : hasSep ('-' :: ' ' :: prof.data) = false)
    (hnl : prof.data.contains '\n' = false)
    (ht : hasSep t.data = false) :
    extract_profile (pre ++ " - " ++ prof) = some prof ∧ extract_profile t = none := by
  refine ⟨extract_profile_after_last pre prof hsep hnl, ?_⟩
  unfold extract_profile
  rw [afterLastSep_of_hasSep_false t.data ht]

/-- Counterexample to C8 as stated: `"a - b\nc"` contains the separator,
yet the search fails (the capture cannot cross the newline and the anchor
cannot match), so extraction is a hard error, not the text after the last
separator. -/
theorem C8_counterexample :
    hasSep ("a - b\nc").data = true ∧ extract_profile "a - b\nc" = none := ⟨rfl, rfl⟩

/-- Concrete check for C8: the spec's scenario C, and a separator-free
title. -/
theorem C8_witness :
    extract_profile ("Nightly 4.14" ++ " - " ++ "aws-ipi") = some "aws-ipi"
    ∧ extract_profile "upgrade run 4.14" = none :=
  C8_profile_after_last_sep "Nightly 4.14" "aws-ipi" "upgrade run 4.14" (by decide)
    (by decide) (by decide)

/-- Claim C10: `match_ordered_strings` with an empty target list returns
`True` on every log text (the `all` of an empty set of found-flags),
including the empty log. -/
theorem C10_empty_patterns_match_everything (log : String) :
    match_ordered_strings log [] = true := rfl

end CIMon
